import Mathlib

/-!
Shallow embedding of the room registry and game engine of
`src/gameManager.js` (secret-number survivor backend).

Modelling conventions:
* JavaScript objects become structures; in-place mutation becomes
  functional update, with the registry (a JS `Map` keyed by room code,
  insertion-ordered) modelled as an association list `List (String × Game)`
  whose `set` operation updates the first matching key in place and
  appends fresh keys, exactly like `Map.set`.
* Socket ids and room codes are `String`s; secret and called values are
  `Int` (the JS code compares them with `===` after `parseInt`);
  a player's not-yet-chosen secret (`null`) is `none`.
* `game.gameLog` does not exist on a freshly created room (it is created
  by `startGame`, and defensively by `eliminateNumber`); it is modelled
  as `Option (List LogEntry)` with `none` for the absent field.
* `Date.now()` is passed in as an explicit `now : Nat` parameter.
* The pending-disconnect timer table (`disconnectTimers`, a Map from
  socket id to a timer) is modelled by its key set, a `List String`.
* Accessing `game.players[game.currentTurnIndex]` when the index is out
  of bounds would throw a `TypeError` in JS (`undefined.id`); this is
  modelled by the distinguished result `ElimResult.crash`, leaving the
  game unchanged.
-/

namespace SecretSurvivor

inductive GameState where
  | LOBBY
  | PLAYING
  | FINISHED
deriving DecidableEq, Repr

structure Player where
  id : String
  name : String
  isHost : Bool
  secretNumber : Option Int
  isEliminated : Bool
  isReady : Bool
deriving DecidableEq, Repr

instance : Inhabited Player := ⟨⟨"", "", false, none, false, false⟩⟩

structure LogEntry where
  player : String
  number : Int
  eliminated : List String
  timestamp : Nat
deriving DecidableEq, Repr

structure Game where
  roomCode : String
  players : List Player
  gameState : GameState
  grid : List Int
  currentTurnIndex : Nat
  eliminatedPlayers : List Player
  winner : Option Player
  minNumber : Int
  maxNumber : Int
  gameLog : Option (List LogEntry)
deriving DecidableEq, Repr

/-- The `games` Map: association list in insertion order, unique keys. -/
abbrev Registry := List (String × Game)

/-- Models `games.get(code)`. -/
def lookupReg : Registry → String → Option Game
  | [], _ => none
  | (c, g) :: rest, code => if c == code then some g else lookupReg rest code

/-- Models `games.set(code, game)`: replace in place if the key exists, else append. -/
def setReg : Registry → String → Game → Registry
  | [], code, game => [(code, game)]
  | (c, g) :: rest, code, game =>
      if c == code then (code, game) :: rest else (c, g) :: setReg rest code game

/-- Models `createGame(playerName, socketId, range)`.  The generated room code is
passed in explicitly; `generateRoomCode` guarantees it is fresh, which the
reachability relation states as a hypothesis. -/
def createGame (games : Registry) (playerName socketId : String)
    (range : Option (Int × Int)) (roomCode : String) : Registry × Game :=
  let player : Player :=
    { id := socketId, name := playerName, isHost := true,
      secretNumber := none, isEliminated := false, isReady := false }
  let game : Game :=
    { roomCode := roomCode, players := [player], gameState := .LOBBY,
      grid := [], currentTurnIndex := 0, eliminatedPlayers := [],
      winner := none,
      minNumber := match range with | some r => r.1 | none => 1,
      maxNumber := match range with | some r => r.2 | none => 100,
      gameLog := none }
  (setReg games roomCode game, game)

/-- Models `joinGame(roomCode, playerName, socketId)`. -/
def joinGame (games : Registry) (roomCode playerName socketId : String) :
    Registry × Except String Game :=
  match lookupReg games roomCode with
  | none => (games, .error "Room not found")
  | some game =>
    if game.gameState ≠ GameState.LOBBY then
      (games, .error "Game already in progress")
    else if 20 ≤ game.players.length then
      (games, .error "Room is full")
    else
      let player : Player :=
        { id := socketId, name := playerName, isHost := false,
          secretNumber := none, isEliminated := false, isReady := false }
      let game' := { game with players := game.players ++ [player] }
      (setReg games roomCode game', .ok game')

/-- Models `game.players.find(p => p.name === playerName)` followed by
`player.id = newSocketId`: rebind the id of the first player with the
given name, leaving everyone else in place. -/
def updateFirstId : List Player → String → String → List Player
  | [], _, _ => []
  | p :: ps, nm, nid =>
      if p.name == nm then { p with id := nid } :: ps
      else p :: updateFirstId ps nm nid

/-- Models `rejoinGame(roomCode, playerName, newSocketId)`; also threads the
disconnect-timer table (cancelling = deleting the old id's key). -/
def rejoinGame (games : Registry) (timers : List String)
    (roomCode playerName newSocketId : String) :
    Registry × List String × Except String (Game × Player) :=
  match lookupReg games roomCode with
  | none => (games, timers, .error "Room not found")
  | some game =>
    match game.players.find? (fun p => p.name == playerName) with
    | none => (games, timers, .error "Player not found in this room")
    | some player =>
      let timers' := timers.filter (fun t => t != player.id)
      let game' := { game with players := updateFirstId game.players playerName newSocketId }
      (setReg games roomCode game', timers', .ok (game', { player with id := newSocketId }))

/-- Models `game.players.find(p => p.id === socketId)` followed by setting
`secretNumber` and `isReady` on the found player. -/
def readyFirstId : List Player → String → Int → List Player
  | [], _, _ => []
  | p :: ps, sid, secret =>
      if p.id == sid then { p with secretNumber := some secret, isReady := true } :: ps
      else p :: readyFirstId ps sid secret

/-- Models `playerReady(roomCode, socketId, secretNumber)`. -/
def playerReady (games : Registry) (roomCode socketId : String) (secret : Int) :
    Registry × Option Game :=
  match lookupReg games roomCode with
  | none => (games, none)
  | some game =>
    let game' := { game with players := readyFirstId game.players socketId secret }
    (setReg games roomCode game', some game')

/-- Models `startGame(roomCode)`. -/
def startGame (games : Registry) (roomCode : String) :
    Registry × Except String Game :=
  match lookupReg games roomCode with
  | none => (games, .error "Game not found")
  | some game =>
    if game.players.length < 2 then
      (games, .error "At least 2 players are required to start the game")
    else if !(game.players.all (fun p => p.isReady)) then
      (games, .error "Not all players are ready")
    else
      let game' := { game with gameState := GameState.PLAYING,
                               currentTurnIndex := 0, gameLog := some [] }
      (setReg games roomCode game', .ok game')

/-- The `while` loop of `nextTurn`: `fuel` is `players.length - attempts`;
the loop stops at the first non-eliminated index or when attempts reach
`players.length`. -/
def nextTurnAux (players : List Player) : Nat → Nat → Nat
  | nextIndex, 0 => nextIndex
  | nextIndex, fuel + 1 =>
      if (players.getD nextIndex default).isEliminated then
        nextTurnAux players ((nextIndex + 1) % players.length) fuel
      else nextIndex

/-- Models `nextTurn(game)`. -/
def nextTurn (game : Game) : Game :=
  let i := nextTurnAux game.players
    ((game.currentTurnIndex + 1) % game.players.length) game.players.length
  { game with currentTurnIndex := i }

/-- The `forEach` body of `eliminateNumber`: walk the player list, marking
every not-yet-eliminated player whose secret equals the called number and
collecting the marked players (the same mutated objects in JS) in order.
Returns (updated player list, players eliminated by this call). -/
def elimScan : List Player → Int → List Player × List Player
  | [], _ => ([], [])
  | p :: ps, number =>
      let rest := elimScan ps number
      if !p.isEliminated && p.secretNumber == some number then
        let p' := { p with isEliminated := true }
        (p' :: rest.1, p' :: rest.2)
      else
        (p :: rest.1, rest.2)

inductive ElimResult where
  /-- JS would throw a TypeError: `players[currentTurnIndex]` is undefined. -/
  | crash
  | err (msg : String)
  | gameOver (eliminatedPlayers : List Player) (number : Int) (gameLog : List LogEntry)
  | contResult (eliminatedPlayers : List Player) (number : Int) (gameLog : List LogEntry)
deriving DecidableEq, Repr

/-- Body of `eliminateNumber` after the room lookup and PLAYING check,
acting on a single game. -/
def eliminateNumberCore (game : Game) (number : Int) (socketId : String)
    (now : Nat) : Game × ElimResult :=
  match game.players[game.currentTurnIndex]? with
  | none => (game, .crash)
  | some currentPlayer =>
    if currentPlayer.id ≠ socketId then
      (game, .err "Not your turn")
    else if currentPlayer.isEliminated then
      (nextTurn game, .err "You are eliminated")
    else if currentPlayer.secretNumber == some number then
      (game, .err "You cannot select your own secret number!")
    else
      let scan := elimScan game.players number
      let entry : LogEntry :=
        { player := currentPlayer.name, number := number,
          eliminated := scan.2.map (fun p => p.name), timestamp := now }
      let log' := game.gameLog.getD [] ++ [entry]
      let g1 : Game :=
        { game with players := scan.1,
                    eliminatedPlayers := game.eliminatedPlayers ++ scan.2,
                    gameLog := some log' }
      let activePlayers := g1.players.filter (fun p => !p.isEliminated)
      if activePlayers.length ≤ 1 then
        ({ g1 with gameState := GameState.FINISHED, winner := activePlayers.head? },
         .gameOver scan.2 number log')
      else
        (nextTurn g1, .contResult scan.2 number log')

/-- Models `eliminateNumber(roomCode, number, socketId)`; `none` is the silent
`return null` of the JS code. -/
def eliminateNumber (games : Registry) (roomCode : String) (number : Int)
    (socketId : String) (now : Nat) : Registry × Option ElimResult :=
  match lookupReg games roomCode with
  | none => (games, none)
  | some game =>
    if game.gameState ≠ GameState.PLAYING then (games, none)
    else
      let r := eliminateNumberCore game number socketId now
      (setReg games roomCode r.1, some r.2)

/-- Models `game.players.findIndex(p => p.id === socketId)` plus
`game.players.splice(index, 1)`: remove the first player with the given
id, returning the removed player and the remaining list. -/
def removeFirstId : List Player → String → Option (Player × List Player)
  | [], _ => none
  | p :: ps, sid =>
      if p.id == sid then some (p, ps)
      else
        match removeFirstId ps sid with
        | none => none
        | some (q, ps') => some (q, p :: ps')

/-- Models `if (player.isHost && game.players.length > 0) game.players[0].isHost = true`. -/
def hostFix (player : Player) (players : List Player) : List Player :=
  if player.isHost then
    match players with
    | [] => []
    | q :: qs => { q with isHost := true } :: qs
  else players

inductive RemoveResult where
  | gameDeleted (roomCode : String)
  | playerLeft (roomCode : String) (game : Game)
deriving DecidableEq, Repr

/-- Models `_removePlayerNow(socketId)`: scan the rooms in insertion order,
remove the player from the first room containing the id; delete the room
if it became empty, otherwise promote the first player to host when the
removed player was the host.  Note: `currentTurnIndex` is not touched. -/
def removePlayerNow : Registry → String → Registry × Option RemoveResult
  | [], _ => ([], none)
  | (code, game) :: rest, socketId =>
    match removeFirstId game.players socketId with
    | some (player, players') =>
      if players' = [] then
        (rest, some (.gameDeleted code))
      else
        let game' := { game with players := hostFix player players' }
        ((code, game') :: rest, some (.playerLeft code game'))
    | none =>
      let r := removePlayerNow rest socketId
      ((code, game) :: r.1, r.2)

/-- One engine command applied to the registry (the timer table only
matters for `rejoinGame`, whose registry effect is independent of it). -/
inductive Step : Registry → Registry → Prop where
  | create (R : Registry) (playerName socketId : String)
      (range : Option (Int × Int)) (code : String) :
      lookupReg R code = none →
      Step R (createGame R playerName socketId range code).1
  | join (R : Registry) (code playerName socketId : String) :
      Step R (joinGame R code playerName socketId).1
  | rejoin (R : Registry) (timers : List String) (code playerName socketId : String) :
      Step R (rejoinGame R timers code playerName socketId).1
  | ready (R : Registry) (code socketId : String) (secret : Int) :
      Step R (playerReady R code socketId secret).1
  | start (R : Registry) (code : String) :
      Step R (startGame R code).1
  | elim (R : Registry) (code : String) (number : Int) (socketId : String) (now : Nat) :
      Step R (eliminateNumber R code number socketId now).1
  | remove (R : Registry) (socketId : String) :
      Step R (removePlayerNow R socketId).1

/-- Registries reachable from the empty registry by engine commands. -/
inductive Reachable : Registry → Prop where
  | init : Reachable []
  | step {R R' : Registry} : Reachable R → Step R R' → Reachable R'

/-- Structural room invariant: non-empty, exactly one host, at most 20
players. -/
def RoomOK (g : Game) : Prop :=
  g.players ≠ [] ∧ g.players.countP (fun p => p.isHost) = 1 ∧ g.players.length ≤ 20

/-- Every room of the registry satisfies `RoomOK`. -/
def RegOK (R : Registry) : Prop := ∀ cg ∈ R, RoomOK cg.2

/- Concrete sample states, used to instantiate the theorems below. -/

/-- Host player of the sample room, already ready with secret 5. -/
def pA : Player :=
  { id := "s1", name := "A", isHost := true, secretNumber := some 5,
    isEliminated := false, isReady := true }

/-- Second player of the sample room, ready with secret 9. -/
def pB : Player :=
  { id := "s2", name := "B", isHost := false, secretNumber := some 9,
    isEliminated := false, isReady := true }

/-- Sample two-player lobby, both ready. -/
def gLobby : Game :=
  { roomCode := "1234", players := [pA, pB], gameState := .LOBBY,
    grid := [], currentTurnIndex := 0, eliminatedPlayers := [],
    winner := none, minNumber := 1, maxNumber := 100, gameLog := none }

/-- The sample lobby after a successful `startGame`. -/
def gPlaying : Game := { gLobby with gameState := .PLAYING, gameLog := some [] }

def regLobby : Registry := [("1234", gLobby)]

def regPlaying : Registry := [("1234", gPlaying)]

/- The C2 failing trace: A creates room 1234, B joins, both ready,
start, A calls 7 (matching nobody, so the turn advances to B), then B is
removed (as the disconnect timer does).  The surviving room is PLAYING
with a single player but `currentTurnIndex = 1`. -/

def traceR1 : Registry := (createGame [] "A" "s1" none "1234").1
def traceR2 : Registry := (joinGame traceR1 "1234" "B" "s2").1
def traceR3 : Registry := (playerReady traceR2 "1234" "s1" 5).1
def traceR4 : Registry := (playerReady traceR3 "1234" "s2" 9).1
def traceR5 : Registry := (startGame traceR4 "1234").1
def traceR6 : Registry := (eliminateNumber traceR5 "1234" 7 "s1" 0).1
def bugRegistry : Registry := (removePlayerNow traceR6 "s2").1

/-- Third sample player, ready with secret 3. -/
def pC : Player :=
  { id := "s3", name := "C", isHost := false, secretNumber := some 3,
    isEliminated := false, isReady := true }

/-- A three-player game in PLAYING state whose second player is
eliminated; the turn is at index 0. -/
def gTurn : Game :=
  { gLobby with players := [pA, { pB with isEliminated := true }, pC],
                gameState := .PLAYING, gameLog := some [] }

/-- The sample room after A's winning call: B eliminated, A the winner. -/
def gFinished : Game :=
  { roomCode := "1234", players := [pA, { pB with isEliminated := true }],
    gameState := .FINISHED, grid := [], currentTurnIndex := 0,
    eliminatedPlayers := [{ pB with isEliminated := true }],
    winner := some pA, minNumber := 1, maxNumber := 100,
    gameLog := some [{ player := "A", number := 9, eliminated := ["B"],
                       timestamp := 0 }] }

def regFinished : Registry := [("1234", gFinished)]

/-- A lobby already holding the 20-player cap. -/
def gFull : Game := { gLobby with players := List.replicate 20 pA }

def regFull : Registry := [("1234", gFull)]

/-! ### Registry lemmas -/

theorem lookupReg_mem {R : Registry} {c : String} {g : Game}
    (h : lookupReg R c = some g) : (c, g) ∈ R := by
  induction R with
  | nil => simp [lookupReg] at h
  | cons hd tl ih =>
    obtain ⟨c', g'⟩ := hd
    simp only [lookupReg] at h
    split at h
    · next hb =>
      obtain rfl : g' = g := by injection h
      obtain rfl : c' = c := by simpa using hb
      exact List.mem_cons_self _ _
    · exact List.mem_cons_of_mem _ (ih h)

theorem mem_setReg {R : Registry} {c : String} {g : Game} {cg : String × Game}
    (h : cg ∈ setReg R c g) : cg ∈ R ∨ cg = (c, g) := by
  induction R with
  | nil =>
    right
    simpa [setReg] using h
  | cons hd tl ih =>
    obtain ⟨c', g'⟩ := hd
    simp only [setReg] at h
    split at h
    · rcases List.mem_cons.mp h with h | h
      · right; exact h
      · left; exact List.mem_cons_of_mem _ h
    · rcases List.mem_cons.mp h with h | h
      · left; simp [h]
      · rcases ih h with h | h
        · left; exact List.mem_cons_of_mem _ h
        · right; exact h

theorem setReg_lookup_self {R : Registry} {c : String} {g : Game}
    (h : lookupReg R c = some g) : setReg R c g = R := by
  induction R with
  | nil => simp [lookupReg] at h
  | cons hd tl ih =>
    obtain ⟨c', g'⟩ := hd
    by_cases hb : c' = c
    · subst hb
      simp only [lookupReg, beq_self_eq_true, if_true] at h
      obtain rfl : g' = g := by injection h
      simp [setReg]
    · have hb' : (c' == c) = false := beq_eq_false_iff_ne.mpr hb
      simp only [lookupReg, hb'] at h
      simp only [setReg, hb', Bool.false_eq_true, if_false]
      rw [ih h]

/-! ### Player-list lemmas -/

theorem length_updateFirstId (ps : List Player) (nm nid : String) :
    (updateFirstId ps nm nid).length = ps.length := by
  induction ps with
  | nil => rfl
  | cons p ps ih =>
    simp only [updateFirstId]
    split <;> simp [ih]

theorem countP_isHost_updateFirstId (ps : List Player) (nm nid : String) :
    (updateFirstId ps nm nid).countP (fun p => p.isHost)
      = ps.countP (fun p => p.isHost) := by
  induction ps with
  | nil => rfl
  | cons p ps ih =>
    simp only [updateFirstId]
    split <;> simp [List.countP_cons, ih]

theorem length_readyFirstId (ps : List Player) (sid : String) (v : Int) :
    (readyFirstId ps sid v).length = ps.length := by
  induction ps with
  | nil => rfl
  | cons p ps ih =>
    simp only [readyFirstId]
    split <;> simp [ih]

theorem countP_isHost_readyFirstId (ps : List Player) (sid : String) (v : Int) :
    (readyFirstId ps sid v).countP (fun p => p.isHost)
      = ps.countP (fun p => p.isHost) := by
  induction ps with
  | nil => rfl
  | cons p ps ih =>
    simp only [readyFirstId]
    split <;> simp [List.countP_cons, ih]

theorem length_elimScan_fst (ps : List Player) (n : Int) :
    (elimScan ps n).1.length = ps.length := by
  induction ps with
  | nil => rfl
  | cons p ps ih =>
    simp only [elimScan]
    split <;> simp [ih]

theorem countP_isHost_elimScan_fst (ps : List Player) (n : Int) :
    (elimScan ps n).1.countP (fun p => p.isHost)
      = ps.countP (fun p => p.isHost) := by
  induction ps with
  | nil => rfl
  | cons p ps ih =>
    simp only [elimScan]
    split <;> simp [List.countP_cons, ih]

/-- Pointwise description of the marking pass: player `j` is marked
eliminated exactly when it was a non-eliminated player whose secret is
the called number, and is untouched otherwise. -/
theorem getElem?_elimScan_fst (ps : List Player) (n : Int) (j : Nat) :
    (elimScan ps n).1[j]?
      = ps[j]?.map (fun p =>
          if !p.isEliminated && p.secretNumber == some n then
            { p with isEliminated := true }
          else p) := by
  induction ps generalizing j with
  | nil => simp [elimScan]
  | cons p ps ih =>
    cases j with
    | zero =>
      simp only [elimScan]
      split
      · next hc =>
        simp only [List.getElem?_cons_zero, Option.map_some']
        rw [if_pos hc]
      · next hc =>
        simp only [List.getElem?_cons_zero, Option.map_some']
        rw [if_neg hc]
    | succ j =>
      simp only [elimScan]
      split <;> simpa using ih j

/-- The players eliminated by one call are exactly the non-eliminated
players whose secret equals the called number, in player order, each
returned with its `isEliminated` flag set. -/
theorem elimScan_snd (ps : List Player) (n : Int) :
    (elimScan ps n).2
      = (ps.filter (fun p => !p.isEliminated && p.secretNumber == some n)).map
          (fun p => { p with isEliminated := true }) := by
  induction ps with
  | nil => rfl
  | cons p ps ih =>
    simp only [elimScan, List.filter_cons]
    split
    · next hc => simp [hc, ih]
    · next hc => simp [hc, ih]

theorem removeFirstId_length {ps : List Player} {sid : String}
    {q : Player} {ps' : List Player}
    (h : removeFirstId ps sid = some (q, ps')) :
    ps.length = ps'.length + 1 := by
  induction ps generalizing ps' with
  | nil => simp [removeFirstId] at h
  | cons p ps ih =>
    simp only [removeFirstId] at h
    split at h
    · obtain ⟨rfl, rfl⟩ : p = q ∧ ps = ps' := by
        constructor <;> injection h with h' <;> simp_all
      rfl
    · split at h
      · exact absurd h (by simp)
      · next q' ps'' heq =>
        obtain ⟨rfl, rfl⟩ : q' = q ∧ p :: ps'' = ps' := by
          constructor <;> injection h with h' <;> simp_all
        simp [ih heq]

theorem removeFirstId_countP {ps : List Player} {sid : String}
    {q : Player} {ps' : List Player} (pr : Player → Bool)
    (h : removeFirstId ps sid = some (q, ps')) :
    ps.countP pr = ps'.countP pr + (if pr q then 1 else 0) := by
  induction ps generalizing ps' with
  | nil => simp [removeFirstId] at h
  | cons p ps ih =>
    simp only [removeFirstId] at h
    split at h
    · obtain ⟨rfl, rfl⟩ : p = q ∧ ps = ps' := by
        constructor <;> injection h with h' <;> simp_all
      simp [List.countP_cons, Nat.add_comm]
    · split at h
      · exact absurd h (by simp)
      · next q' ps'' heq =>
        obtain ⟨rfl, rfl⟩ : q' = q ∧ p :: ps'' = ps' := by
          constructor <;> injection h with h' <;> simp_all
        simp only [List.countP_cons, ih heq]
        omega

theorem length_hostFix (q : Player) (ps : List Player) :
    (hostFix q ps).length = ps.length := by
  unfold hostFix
  split
  · cases ps <;> rfl
  · rfl

theorem hostFix_nil_iff (q : Player) (ps : List Player) :
    hostFix q ps = [] ↔ ps = [] := by
  unfold hostFix
  split
  · cases ps <;> simp
  · rfl

theorem countP_isHost_hostFix {q : Player} {ps : List Player}
    (hq : q.isHost = true) (hps : ps ≠ [])
    (h0 : ps.countP (fun p => p.isHost) = 0) :
    (hostFix q ps).countP (fun p => p.isHost) = 1 := by
  unfold hostFix
  rw [if_pos hq]
  cases ps with
  | nil => exact absurd rfl hps
  | cons r rs =>
    rw [List.countP_cons] at h0 ⊢
    have hr : (fun (p : Player) => p.isHost) { r with isHost := true } = true := rfl
    simp only [hr, if_true]
    split at h0 <;> omega

/-- Lemma: `find?` by name locates the first player with the given name, and
`updateFirstId` rebinds exactly that player's id, leaving all other
positions untouched. -/
theorem find?_name_updateFirstId {ps : List Player} {nm : String} {p : Player}
    (h : ps.find? (fun q => q.name == nm) = some p) (nid : String) :
    ∃ i, ps[i]? = some p ∧
      (∀ j, j < i → ∀ q, ps[j]? = some q → q.name ≠ nm) ∧
      updateFirstId ps nm nid = ps.set i { p with id := nid } := by
  induction ps with
  | nil => simp [List.find?] at h
  | cons r rs ih =>
    cases hr : (r.name == nm) with
    | true =>
      rw [List.find?_cons_of_pos (p := fun (q : Player) => q.name == nm) _ hr] at h
      obtain rfl : r = p := by injection h
      refine ⟨0, List.getElem?_cons_zero, ?_, ?_⟩
      · intro j hj
        omega
      · unfold updateFirstId
        rw [if_pos hr, List.set_cons_zero]
    | false =>
      rw [List.find?_cons_of_neg (p := fun (q : Player) => q.name == nm) _
        (by simp [hr])] at h
      obtain ⟨i, h1, h2, h3⟩ := ih h
      refine ⟨i + 1, ?_, ?_, ?_⟩
      · simpa using h1
      · intro j hj q hq
        cases j with
        | zero =>
          obtain rfl : r = q := by
            rw [List.getElem?_cons_zero] at hq
            injection hq
          exact ne_of_beq_false hr
        | succ j' =>
          exact h2 j' (by omega) q (by simpa using hq)
      · unfold updateFirstId
        rw [if_neg (by rw [hr]; exact Bool.false_ne_true), h3, List.set_cons_succ]

/-! ### Turn advancement -/

/-- Every index below `n` is hit by some circular offset below `n`. -/
theorem exists_mod_offset {n : Nat} (i j : Nat) (hn : 0 < n) (hj : j < n) :
    ∃ k, k < n ∧ (i + k) % n = j := by
  by_cases h : i % n ≤ j
  · refine ⟨j - i % n, by omega, ?_⟩
    rw [← Nat.mod_add_mod]
    have hij : i % n + (j - i % n) = j := by omega
    rw [hij, Nat.mod_eq_of_lt hj]
  · have hi : i % n < n := Nat.mod_lt _ hn
    refine ⟨n + j - i % n, by omega, ?_⟩
    rw [← Nat.mod_add_mod]
    have hij : i % n + (n + j - i % n) = n + j := by omega
    rw [hij, Nat.add_mod_left, Nat.mod_eq_of_lt hj]

/-- The scan loop of `nextTurn` reaches the first non-eliminated index:
if some circular offset below `fuel` is non-eliminated, the loop stops at
the least such offset. -/
theorem nextTurnAux_spec (players : List Player) :
    ∀ (fuel start : Nat), start < players.length →
    (∃ k, k < fuel ∧
      (players.getD ((start + k) % players.length) default).isEliminated = false) →
    ∃ k, k < fuel ∧
      nextTurnAux players start fuel = (start + k) % players.length ∧
      (players.getD ((start + k) % players.length) default).isEliminated = false ∧
      ∀ m, m < k →
        (players.getD ((start + m) % players.length) default).isEliminated = true := by
  intro fuel
  induction fuel with
  | zero =>
    intro start _ hex
    obtain ⟨k, hk, _⟩ := hex
    omega
  | succ fuel ih =>
    intro start hstart hex
    cases h0 : (players.getD start default).isEliminated with
    | false =>
      refine ⟨0, by omega, ?_, ?_, ?_⟩
      · simp only [nextTurnAux]
        rw [if_neg (by rw [h0]; exact Bool.false_ne_true), Nat.add_zero,
          Nat.mod_eq_of_lt hstart]
      · rw [Nat.add_zero, Nat.mod_eq_of_lt hstart]; exact h0
      · intro m hm; omega
    | true =>
      have hn : 0 < players.length := by omega
      have hstart' : (start + 1) % players.length < players.length := Nat.mod_lt _ hn
      have hex' : ∃ k, k < fuel ∧
          (players.getD (((start + 1) % players.length + k) % players.length)
            default).isEliminated = false := by
        obtain ⟨k, hk, hke⟩ := hex
        cases k with
        | zero =>
          rw [Nat.add_zero, Nat.mod_eq_of_lt hstart] at hke
          rw [h0] at hke
          cases hke
        | succ k' =>
          refine ⟨k', by omega, ?_⟩
          have harg : ((start + 1) % players.length + k') % players.length
              = (start + (k' + 1)) % players.length := by
            rw [Nat.mod_add_mod]
            congr 1
            omega
          rw [harg]
          exact hke
      obtain ⟨k', hk', heq, hact, hall⟩ := ih ((start + 1) % players.length) hstart' hex'
      have harg : ((start + 1) % players.length + k') % players.length
          = (start + (k' + 1)) % players.length := by
        rw [Nat.mod_add_mod]
        congr 1
        omega
      refine ⟨k' + 1, by omega, ?_, ?_, ?_⟩
      · simp only [nextTurnAux]
        rw [if_pos h0, heq, harg]
      · rw [← harg]; exact hact
      · intro m hm
        cases m with
        | zero => rw [Nat.add_zero, Nat.mod_eq_of_lt hstart]; exact h0
        | succ m' =>
          have harg' : ((start + 1) % players.length + m') % players.length
              = (start + (m' + 1)) % players.length := by
            rw [Nat.mod_add_mod]
            congr 1
            omega
          rw [← harg']
          exact hall m' (by omega)

/-! ### Preservation of the structural room invariant -/

theorem ne_nil_of_length_eq {α β : Type} {xs : List α} {ys : List β}
    (h : xs.length = ys.length) (hy : ys ≠ []) : xs ≠ [] := by
  intro hnil
  apply hy
  rw [hnil] at h
  exact List.eq_nil_of_length_eq_zero h.symm

theorem regOK_setReg {R : Registry} {c : String} {g : Game}
    (hR : RegOK R) (hg : RoomOK g) : RegOK (setReg R c g) := by
  intro cg hcg
  rcases mem_setReg hcg with h | h
  · exact hR cg h
  · rw [h]; exact hg

theorem regOK_createGame {R : Registry} (nm sid : String)
    (range : Option (Int × Int)) (code : String) (hR : RegOK R) :
    RegOK (createGame R nm sid range code).1 := by
  refine regOK_setReg hR ⟨by simp, ?_, by simp⟩
  simp [List.countP_cons]

theorem regOK_joinGame {R : Registry} (code nm sid : String) (hR : RegOK R) :
    RegOK (joinGame R code nm sid).1 := by
  unfold joinGame
  cases hlk : lookupReg R code with
  | none => simp only [hlk]; exact hR
  | some g =>
    simp only [hlk]
    split
    · exact hR
    · split
      · exact hR
      · next h2 =>
        obtain ⟨hne, hcount, _⟩ := hR (code, g) (lookupReg_mem hlk)
        refine regOK_setReg hR ⟨by simp, ?_, ?_⟩
        · rw [List.countP_append, hcount]
          simp [List.countP_cons]
        · rw [List.length_append]
          simp only [List.length_cons, List.length_nil]
          omega

theorem regOK_rejoinGame {R : Registry} (timers : List String)
    (code nm sid : String) (hR : RegOK R) :
    RegOK (rejoinGame R timers code nm sid).1 := by
  unfold rejoinGame
  cases hlk : lookupReg R code with
  | none => simp only [hlk]; exact hR
  | some g =>
    simp only [hlk]
    cases hf : g.players.find? (fun p => p.name == nm) with
    | none => simp only [hf]; exact hR
    | some p =>
      simp only [hf]
      obtain ⟨hne, hcount, hlen⟩ := hR (code, g) (lookupReg_mem hlk)
      have h1 : updateFirstId g.players nm sid ≠ [] :=
        ne_nil_of_length_eq (length_updateFirstId g.players nm sid) hne
      have h2 : (updateFirstId g.players nm sid).countP (fun p => p.isHost) = 1 :=
        (countP_isHost_updateFirstId g.players nm sid).trans hcount
      have h3 : (updateFirstId g.players nm sid).length ≤ 20 :=
        (length_updateFirstId g.players nm sid).symm ▸ hlen
      exact regOK_setReg hR ⟨h1, h2, h3⟩

theorem regOK_playerReady {R : Registry} (code sid : String) (v : Int)
    (hR : RegOK R) : RegOK (playerReady R code sid v).1 := by
  unfold playerReady
  cases hlk : lookupReg R code with
  | none => simp only [hlk]; exact hR
  | some g =>
    simp only [hlk]
    obtain ⟨hne, hcount, hlen⟩ := hR (code, g) (lookupReg_mem hlk)
    have h1 : readyFirstId g.players sid v ≠ [] :=
      ne_nil_of_length_eq (length_readyFirstId g.players sid v) hne
    have h2 : (readyFirstId g.players sid v).countP (fun p => p.isHost) = 1 :=
      (countP_isHost_readyFirstId g.players sid v).trans hcount
    have h3 : (readyFirstId g.players sid v).length ≤ 20 :=
      (length_readyFirstId g.players sid v).symm ▸ hlen
    exact regOK_setReg hR ⟨h1, h2, h3⟩

theorem regOK_startGame {R : Registry} (code : String) (hR : RegOK R) :
    RegOK (startGame R code).1 := by
  unfold startGame
  cases hlk : lookupReg R code with
  | none => simp only [hlk]; exact hR
  | some g =>
    simp only [hlk]
    split
    · exact hR
    · split
      · exact hR
      · exact regOK_setReg hR (hR (code, g) (lookupReg_mem hlk))

theorem roomOK_eliminateNumberCore {g : Game} (number : Int) (sid : String)
    (now : Nat) (hg : RoomOK g) : RoomOK (eliminateNumberCore g number sid now).1 := by
  obtain ⟨hne, hcount, hlen⟩ := hg
  have hscanOK : RoomOK { g with
      players := (elimScan g.players number).1,
      eliminatedPlayers := g.eliminatedPlayers ++ (elimScan g.players number).2,
      gameLog := some (g.gameLog.getD [] ++
        [{ player := (g.players[g.currentTurnIndex]?.getD default).name,
           number := number,
           eliminated := (elimScan g.players number).2.map (fun p => p.name),
           timestamp := now }]) } := by
    have hlenscan := length_elimScan_fst g.players number
    have h1 : (elimScan g.players number).1 ≠ [] := ne_nil_of_length_eq hlenscan hne
    have h2 : (elimScan g.players number).1.countP (fun p => p.isHost) = 1 :=
      (countP_isHost_elimScan_fst g.players number).trans hcount
    have h3 : (elimScan g.players number).1.length ≤ 20 := by omega
    exact ⟨h1, h2, h3⟩
  unfold eliminateNumberCore
  cases hcp : g.players[g.currentTurnIndex]? with
  | none => exact ⟨hne, hcount, hlen⟩
  | some cp =>
    simp only [hcp]
    split
    · exact ⟨hne, hcount, hlen⟩
    · split
      · exact ⟨hne, hcount, hlen⟩
      · split
        · exact ⟨hne, hcount, hlen⟩
        · split
          · exact hscanOK
          · exact hscanOK

theorem regOK_eliminateNumber {R : Registry} (code : String) (number : Int)
    (sid : String) (now : Nat) (hR : RegOK R) :
    RegOK (eliminateNumber R code number sid now).1 := by
  unfold eliminateNumber
  cases hlk : lookupReg R code with
  | none => simp only [hlk]; exact hR
  | some g =>
    simp only [hlk]
    split
    · exact hR
    · exact regOK_setReg hR
        (roomOK_eliminateNumberCore number sid now (hR (code, g) (lookupReg_mem hlk)))

theorem regOK_removePlayerNow {R : Registry} (sid : String) (hR : RegOK R) :
    RegOK (removePlayerNow R sid).1 := by
  induction R with
  | nil => intro cg hcg; simp [removePlayerNow] at hcg
  | cons hd tl ih =>
    obtain ⟨code, game⟩ := hd
    have htl : RegOK tl := fun cg h => hR cg (List.mem_cons_of_mem _ h)
    have hhd : RoomOK game := hR (code, game) (List.mem_cons_self _ _)
    unfold removePlayerNow
    cases hrm : removeFirstId game.players sid with
    | none =>
      simp only [hrm]
      intro cg hcg
      rcases List.mem_cons.mp hcg with h | h
      · rw [h]; exact hhd
      · exact ih htl cg h
    | some pr =>
      obtain ⟨q, ps'⟩ := pr
      simp only [hrm]
      split
      · exact htl
      · next hnil =>
        intro cg hcg
        rcases List.mem_cons.mp hcg with h | h
        · rw [h]
          obtain ⟨hne0, hcount, hlen⟩ := hhd
          have hlen' := removeFirstId_length hrm
          have hcnt := removeFirstId_countP (fun p => p.isHost) hrm
          show hostFix q ps' ≠ [] ∧
            List.countP (fun p => p.isHost) (hostFix q ps') = 1 ∧
            (hostFix q ps').length ≤ 20
          refine ⟨?_, ?_, ?_⟩
          · rw [Ne, hostFix_nil_iff]; exact hnil
          · have hb : ((fun (p : Player) => p.isHost) q) = q.isHost := rfl
            rw [hb] at hcnt
            cases hq : q.isHost with
            | true =>
              rw [hq, if_pos rfl] at hcnt
              exact countP_isHost_hostFix hq hnil (by omega)
            | false =>
              rw [hq, if_neg Bool.false_ne_true, Nat.add_zero] at hcnt
              rw [show hostFix q ps' = ps' from by
                unfold hostFix
                rw [if_neg (by rw [hq]; exact Bool.false_ne_true)]]
              omega
          · rw [length_hostFix]; omega
        · exact htl cg h

/-- The structural invariant holds in every reachable registry. -/
theorem reachable_regOK {R : Registry} (h : Reachable R) : RegOK R := by
  induction h with
  | init => intro cg hcg; cases hcg
  | step _ hstep ih =>
    cases hstep with
    | create nm sid range code _ => exact regOK_createGame nm sid range code ih
    | join code nm sid => exact regOK_joinGame code nm sid ih
    | rejoin timers code nm sid => exact regOK_rejoinGame timers code nm sid ih
    | ready code sid v => exact regOK_playerReady code sid v ih
    | start code => exact regOK_startGame code ih
    | elim code number sid now => exact regOK_eliminateNumber code number sid now ih
    | remove sid => exact regOK_removePlayerNow sid ih

/-! ### Claim theorems -/

/-- C7: in a PLAYING room whose current-turn player is the caller and not
eliminated, calling the player's own secret value returns the
`SelfTargetForbidden` error (`"You cannot select your own secret
number!"`) and leaves the registry — players, flags, turn index, log,
state, winner — completely unchanged. -/
theorem eliminateNumber_self_target_is_error_and_noop
    (R : Registry) (code : String) (number : Int) (sid : String) (now : Nat)
    (g : Game) (cp : Player)
    (hlk : lookupReg R code = some g)
    (hstate : g.gameState = GameState.PLAYING)
    (hcp : g.players[g.currentTurnIndex]? = some cp)
    (hid : cp.id = sid)
    (helim : cp.isEliminated = false)
    (hsec : cp.secretNumber = some number) :
    eliminateNumber R code number sid now
      = (R, some (ElimResult.err "You cannot select your own secret number!")) := by
  unfold eliminateNumber
  simp only [hlk]
  rw [if_neg (show ¬(g.gameState ≠ GameState.PLAYING) from fun h => h hstate)]
  unfold eliminateNumberCore
  simp only [hcp]
  rw [if_neg (show ¬(cp.id ≠ sid) from fun h => h hid)]
  rw [if_neg (show ¬(cp.isEliminated = true) from by
    rw [helim]; exact Bool.false_ne_true)]
  rw [if_pos (show (cp.secretNumber == some number) = true from by
    rw [hsec]; exact beq_self_eq_true _)]
  simp only [setReg_lookup_self hlk]

theorem eliminateNumber_self_target_witness :
    eliminateNumber regPlaying "1234" 5 "s1" 0
      = (regPlaying, some (ElimResult.err "You cannot select your own secret number!")) :=
  eliminateNumber_self_target_is_error_and_noop regPlaying "1234" 5 "s1" 0
    gPlaying pA rfl rfl rfl rfl rfl rfl

/-- C8: if the room code is unknown, or the room is not in PLAYING state
(in particular FINISHED), `eliminateNumber` returns `none` and the
registry is unchanged, so repeating a winning call is a no-op. -/
theorem eliminateNumber_silent_when_room_unknown_or_not_playing
    (R : Registry) (code : String) (number : Int) (sid : String) (now : Nat)
    (h : lookupReg R code = none ∨
      ∃ g, lookupReg R code = some g ∧ g.gameState ≠ GameState.PLAYING) :
    eliminateNumber R code number sid now = (R, none) := by
  unfold eliminateNumber
  rcases h with h | ⟨g, hg, hstate⟩
  · simp only [h]
  · simp only [hg]
    rw [if_pos hstate]

theorem eliminateNumber_silent_witness :
    eliminateNumber regFinished "1234" 9 "s1" 1 = (regFinished, none) :=
  eliminateNumber_silent_when_room_unknown_or_not_playing regFinished "1234" 9 "s1" 1
    (Or.inr ⟨gFinished, rfl, by decide⟩)

/-- C10: in a PLAYING room whose current-turn player is not eliminated
but whose connection id differs from the caller's, `eliminateNumber`
returns the `NotYourTurn` error and changes nothing — in contrast to the
`AlreadyEliminated` branch, which advances the turn before erroring. -/
theorem eliminateNumber_wrong_caller_is_error_and_noop
    (R : Registry) (code : String) (number : Int) (sid : String) (now : Nat)
    (g : Game) (cp : Player)
    (hlk : lookupReg R code = some g)
    (hstate : g.gameState = GameState.PLAYING)
    (hcp : g.players[g.currentTurnIndex]? = some cp) :
    (cp.isEliminated = false → cp.id ≠ sid →
      eliminateNumber R code number sid now
        = (R, some (ElimResult.err "Not your turn"))) ∧
    (cp.id = sid → cp.isEliminated = true →
      eliminateNumber R code number sid now
        = (setReg R code (nextTurn g), some (ElimResult.err "You are eliminated"))) := by
  constructor
  · intro _ hid
    unfold eliminateNumber
    simp only [hlk]
    rw [if_neg (show ¬(g.gameState ≠ GameState.PLAYING) from fun h => h hstate)]
    unfold eliminateNumberCore
    simp only [hcp]
    rw [if_pos hid]
    simp only [setReg_lookup_self hlk]
  · intro hid helim
    unfold eliminateNumber
    simp only [hlk]
    rw [if_neg (show ¬(g.gameState ≠ GameState.PLAYING) from fun h => h hstate)]
    unfold eliminateNumberCore
    simp only [hcp]
    rw [if_neg (show ¬(cp.id ≠ sid) from fun h => h hid)]
    rw [if_pos helim]

theorem eliminateNumber_wrong_caller_witness :
    eliminateNumber regPlaying "1234" 9 "s2" 0
      = (regPlaying, some (ElimResult.err "Not your turn")) :=
  (eliminateNumber_wrong_caller_is_error_and_noop regPlaying "1234" 9 "s2" 0
    gPlaying pA rfl rfl rfl).1 rfl (by decide)

/-- C5: `startGame` fails with `RoomNotFound` on an unknown code, with
`InsufficientPlayers` below 2 players, and with `NotAllReady` when some
player is unready; on success (from LOBBY, all ready, ≥ 2 players) it
sets the state to PLAYING, resets the turn index to 0 and initializes an
empty action log, leaving the player list unchanged. -/
theorem startGame_spec (R : Registry) (code : String) :
    (lookupReg R code = none →
      startGame R code = (R, Except.error "Game not found")) ∧
    (∀ g, lookupReg R code = some g → g.players.length < 2 →
      startGame R code
        = (R, Except.error "At least 2 players are required to start the game")) ∧
    (∀ g, lookupReg R code = some g → 2 ≤ g.players.length →
      (∃ p, p ∈ g.players ∧ p.isReady = false) →
      startGame R code = (R, Except.error "Not all players are ready")) ∧
    (∀ g, lookupReg R code = some g → g.gameState = GameState.LOBBY →
      2 ≤ g.players.length → (∀ p, p ∈ g.players → p.isReady = true) →
      ∃ g', startGame R code = (setReg R code g', Except.ok g') ∧
        g'.gameState = GameState.PLAYING ∧ g'.currentTurnIndex = 0 ∧
        g'.gameLog = some [] ∧ g'.players = g.players) := by
  refine ⟨?_, ?_, ?_, ?_⟩
  · intro h
    unfold startGame
    simp only [h]
  · intro g hg hlen
    unfold startGame
    simp only [hg]
    rw [if_pos hlen]
  · intro g hg hlen hex
    obtain ⟨p, hp, hpr⟩ := hex
    have hall : g.players.all (fun p => p.isReady) = false :=
      List.all_eq_false.mpr ⟨p, hp, by rw [hpr]; exact Bool.false_ne_true⟩
    unfold startGame
    simp only [hg]
    rw [if_neg (by omega), if_pos (by rw [hall]; rfl)]
  · intro g hg _ hlen hready
    have hall : g.players.all (fun p => p.isReady) = true :=
      List.all_eq_true.mpr (fun p hp => hready p hp)
    unfold startGame
    simp only [hg]
    rw [if_neg (by omega), if_neg (by rw [hall]; exact Bool.false_ne_true)]
    exact ⟨_, rfl, rfl, rfl, rfl, rfl⟩

theorem startGame_spec_witness :
    ∃ g', startGame regLobby "1234" = (setReg regLobby "1234" g', Except.ok g') ∧
      g'.gameState = GameState.PLAYING ∧ g'.currentTurnIndex = 0 ∧
      g'.gameLog = some [] ∧ g'.players = gLobby.players :=
  (startGame_spec regLobby "1234").2.2.2 gLobby rfl rfl (by decide) (by decide)

/-- C6: `joinGame` fails with `RoomNotFound` on an unknown code, with
`RoomNotJoinable` outside LOBBY, with `RoomFull` at 20 or more players,
and otherwise appends a fresh unready, non-host player with no secret at
the end of the sequence; consequently every reachable room holds at most
20 players, so a 21st join fails. -/
theorem joinGame_spec_and_cap :
    (∀ (R : Registry) (code nm sid : String),
      (lookupReg R code = none →
        joinGame R code nm sid = (R, Except.error "Room not found")) ∧
      (∀ g, lookupReg R code = some g → g.gameState ≠ GameState.LOBBY →
        joinGame R code nm sid = (R, Except.error "Game already in progress")) ∧
      (∀ g, lookupReg R code = some g → g.gameState = GameState.LOBBY →
        20 ≤ g.players.length →
        joinGame R code nm sid = (R, Except.error "Room is full")) ∧
      (∀ g, lookupReg R code = some g → g.gameState = GameState.LOBBY →
        g.players.length < 20 →
        ∃ g', joinGame R code nm sid = (setReg R code g', Except.ok g') ∧
          g'.players = g.players ++
            [{ id := sid, name := nm, isHost := false, secretNumber := none,
               isEliminated := false, isReady := false }] ∧
          g'.players.length = g.players.length + 1)) ∧
    (∀ R, Reachable R → ∀ cg ∈ R, cg.2.players.length ≤ 20) := by
  constructor
  · intro R code nm sid
    refine ⟨?_, ?_, ?_, ?_⟩
    · intro h
      unfold joinGame
      simp only [h]
    · intro g hg hstate
      unfold joinGame
      simp only [hg]
      rw [if_pos hstate]
    · intro g hg hstate hlen
      unfold joinGame
      simp only [hg]
      rw [if_neg (show ¬(g.gameState ≠ GameState.LOBBY) from fun h => h hstate)]
      rw [if_pos hlen]
    · intro g hg hstate hlen
      unfold joinGame
      simp only [hg]
      rw [if_neg (show ¬(g.gameState ≠ GameState.LOBBY) from fun h => h hstate)]
      rw [if_neg (by omega)]
      refine ⟨_, rfl, rfl, ?_⟩
      simp
  · intro R hR cg hcg
    exact (reachable_regOK hR cg hcg).2.2

theorem joinGame_cap_witness :
    joinGame regFull "1234" "X" "s21" = (regFull, Except.error "Room is full") :=
  (joinGame_spec_and_cap.1 regFull "1234" "X" "s21").2.2.1 gFull rfl rfl (by decide)

/-- C3: in a room with at least one player and some non-eliminated player
away from the current index, `nextTurn` moves `currentTurnIndex` to the
first non-eliminated index reached scanning circularly from
`(currentTurnIndex + 1) % playerCount`; in particular the new index
points at a non-eliminated player. -/
theorem nextTurn_first_active (g : Game)
    (hn : 1 ≤ g.players.length)
    (hex : ∃ j, j < g.players.length ∧ j ≠ g.currentTurnIndex ∧
      (g.players.getD j default).isEliminated = false) :
    ∃ k, k < g.players.length ∧
      (nextTurn g).currentTurnIndex
        = ((g.currentTurnIndex + 1) % g.players.length + k) % g.players.length ∧
      (g.players.getD ((nextTurn g).currentTurnIndex) default).isEliminated = false ∧
      ∀ m, m < k →
        (g.players.getD
          (((g.currentTurnIndex + 1) % g.players.length + m) % g.players.length)
          default).isEliminated = true := by
  obtain ⟨j, hj, _, hact⟩ := hex
  have hn0 : 0 < g.players.length := hn
  have hstartlt : (g.currentTurnIndex + 1) % g.players.length < g.players.length :=
    Nat.mod_lt _ hn0
  obtain ⟨k0, hk0, hk0eq⟩ :=
    exists_mod_offset ((g.currentTurnIndex + 1) % g.players.length) j hn0 hj
  obtain ⟨k, hk, heq, hactk, hall⟩ :=
    nextTurnAux_spec g.players g.players.length
      ((g.currentTurnIndex + 1) % g.players.length) hstartlt
      ⟨k0, hk0, by rw [hk0eq]; exact hact⟩
  refine ⟨k, hk, ?_, ?_, hall⟩
  · exact heq
  · show (g.players.getD
      (nextTurnAux g.players ((g.currentTurnIndex + 1) % g.players.length)
        g.players.length) default).isEliminated = false
    rw [heq]
    exact hactk

theorem nextTurn_first_active_witness :
    ∃ k, k < gTurn.players.length ∧
      (nextTurn gTurn).currentTurnIndex
        = ((gTurn.currentTurnIndex + 1) % gTurn.players.length + k)
            % gTurn.players.length ∧
      (gTurn.players.getD ((nextTurn gTurn).currentTurnIndex)
        default).isEliminated = false ∧
      ∀ m, m < k →
        (gTurn.players.getD
          (((gTurn.currentTurnIndex + 1) % gTurn.players.length + m)
            % gTurn.players.length) default).isEliminated = true :=
  nextTurn_first_active gTurn (by decide) ⟨2, by decide, by decide, by decide⟩

/-- C4: every reachable non-empty room has exactly one host; and when
the removed player was the host and the room stays non-empty, the new
first player in the sequence is promoted to host. -/
theorem host_uniqueness_invariant :
    (∀ R, Reachable R → ∀ cg ∈ R, cg.2.players ≠ [] →
      cg.2.players.countP (fun p => p.isHost) = 1) ∧
    (∀ (g : Game) (sid : String) (q : Player) (ps' : List Player),
      g.players.countP (fun p => p.isHost) = 1 →
      removeFirstId g.players sid = some (q, ps') →
      q.isHost = true → ps' ≠ [] →
      ∃ r rs, ps' = r :: rs ∧
        hostFix q ps' = { r with isHost := true } :: rs) := by
  constructor
  · intro R hR cg hcg _
    exact (reachable_regOK hR cg hcg).2.1
  · intro g sid q ps' _ _ hq hne
    cases ps' with
    | nil => exact absurd rfl hne
    | cons r rs =>
      refine ⟨r, rs, rfl, ?_⟩
      unfold hostFix
      rw [if_pos hq]

theorem host_uniqueness_witness :
    ((createGame [] "A" "s1" none "1234").2).players.countP (fun p => p.isHost) = 1 ∧
    (∃ r rs, ([pB] : List Player) = r :: rs ∧
      hostFix pA [pB] = { r with isHost := true } :: rs) :=
  ⟨host_uniqueness_invariant.1 traceR1
      (Reachable.step Reachable.init (Step.create [] "A" "s1" none "1234" rfl))
      ("1234", (createGame [] "A" "s1" none "1234").2) (by decide) (by decide),
   host_uniqueness_invariant.2 gLobby "s1" pA [pB] (by decide) (by decide) rfl
     (by decide)⟩

/-- C2 (refuted by the code): after the legal command sequence create,
join, ready, ready, start, one no-elimination call (which advances the
turn to index 1), and removal of the second player, the surviving room is
still PLAYING with a single player but `currentTurnIndex = 1` — an
out-of-bounds index, violating the claimed invariant
(`_removePlayerNow` never adjusts `currentTurnIndex`). -/
theorem removePlayer_leaves_stale_turn_index :
    Reachable bugRegistry ∧
    ∃ g, lookupReg bugRegistry "1234" = some g ∧
      g.gameState = GameState.PLAYING ∧
      g.players.length = 1 ∧
      g.currentTurnIndex = 1 := by
  constructor
  · exact Reachable.step (Reachable.step (Reachable.step (Reachable.step
      (Reachable.step (Reachable.step (Reachable.step Reachable.init
        (Step.create [] "A" "s1" none "1234" rfl))
        (Step.join traceR1 "1234" "B" "s2"))
        (Step.ready traceR2 "1234" "s1" 5))
        (Step.ready traceR3 "1234" "s2" 9))
        (Step.start traceR4 "1234"))
        (Step.elim traceR5 "1234" 7 "s1" 0))
        (Step.remove traceR6 "s2")
  · exact ⟨_, rfl, rfl, rfl, rfl⟩

/-- C9: a successful `rejoinGame` matches the first player with the
given name, rebinds only that player's connection id to the new one and
cancels any pending removal timer for the old id; the player's position,
every other player, and every other room field are unchanged, as are the
matched player's name, host flag, secret, elimination flag and
readiness. -/
theorem rejoinGame_frame
    (R : Registry) (timers : List String) (code nm nid : String)
    (g : Game) (p : Player)
    (hlk : lookupReg R code = some g)
    (hf : g.players.find? (fun q => q.name == nm) = some p) :
    ∃ g' i,
      rejoinGame R timers code nm nid
        = (setReg R code g', timers.filter (fun t => t != p.id),
           Except.ok (g', { p with id := nid })) ∧
      g.players[i]? = some p ∧
      (∀ j, j < i → ∀ q, g.players[j]? = some q → q.name ≠ nm) ∧
      g'.players = g.players.set i { p with id := nid } ∧
      (∀ j, j ≠ i → g'.players[j]? = g.players[j]?) ∧
      g'.roomCode = g.roomCode ∧ g'.gameState = g.gameState ∧
      g'.grid = g.grid ∧ g'.currentTurnIndex = g.currentTurnIndex ∧
      g'.eliminatedPlayers = g.eliminatedPlayers ∧ g'.winner = g.winner ∧
      g'.minNumber = g.minNumber ∧ g'.maxNumber = g.maxNumber ∧
      g'.gameLog = g.gameLog ∧
      ({ p with id := nid } : Player).name = p.name ∧
      ({ p with id := nid } : Player).isHost = p.isHost ∧
      ({ p with id := nid } : Player).secretNumber = p.secretNumber ∧
      ({ p with id := nid } : Player).isEliminated = p.isEliminated ∧
      ({ p with id := nid } : Player).isReady = p.isReady := by
  obtain ⟨i, h1, h2, h3⟩ := find?_name_updateFirstId hf nid
  refine ⟨{ g with players := updateFirstId g.players nm nid }, i, ?_, h1, h2, h3,
    ?_, rfl, rfl, rfl, rfl, rfl, rfl, rfl, rfl, rfl, rfl, rfl, rfl, rfl, rfl⟩
  · unfold rejoinGame
    simp only [hlk, hf]
  · intro j hj
    show (updateFirstId g.players nm nid)[j]? = g.players[j]?
    rw [h3]
    exact List.getElem?_set_ne (Ne.symm hj)

theorem rejoinGame_frame_witness :
    ∃ g' i,
      rejoinGame regPlaying ["s1", "x"] "1234" "A" "s9"
        = (setReg regPlaying "1234" g',
           List.filter (fun t => t != pA.id) ["s1", "x"],
           Except.ok (g', { pA with id := "s9" })) ∧
      gPlaying.players[i]? = some pA ∧
      (∀ j, j < i → ∀ q, gPlaying.players[j]? = some q → q.name ≠ "A") ∧
      g'.players = gPlaying.players.set i { pA with id := "s9" } ∧
      (∀ j, j ≠ i → g'.players[j]? = gPlaying.players[j]?) ∧
      g'.roomCode = gPlaying.roomCode ∧ g'.gameState = gPlaying.gameState ∧
      g'.grid = gPlaying.grid ∧ g'.currentTurnIndex = gPlaying.currentTurnIndex ∧
      g'.eliminatedPlayers = gPlaying.eliminatedPlayers ∧
      g'.winner = gPlaying.winner ∧
      g'.minNumber = gPlaying.minNumber ∧ g'.maxNumber = gPlaying.maxNumber ∧
      g'.gameLog = gPlaying.gameLog ∧
      ({ pA with id := "s9" } : Player).name = pA.name ∧
      ({ pA with id := "s9" } : Player).isHost = pA.isHost ∧
      ({ pA with id := "s9" } : Player).secretNumber = pA.secretNumber ∧
      ({ pA with id := "s9" } : Player).isEliminated = pA.isEliminated ∧
      ({ pA with id := "s9" } : Player).isReady = pA.isReady :=
  rejoinGame_frame regPlaying ["s1", "x"] "1234" "A" "s9" gPlaying pA rfl rfl

/-- C1: in a PLAYING room whose current-turn player is the caller, not
eliminated, and whose secret differs from the called value: exactly the
non-eliminated players whose secret equals the called value are marked
eliminated; they are appended to the room's eliminated-list and carried
in the result; one log entry (caller's name, called value, eliminated
names, timestamp) is appended; then, if at most one active player
remains, the state becomes FINISHED with the sole remaining active
player (if any) as winner and a GameOver outcome, else the turn advances
by the scan loop and a Continue outcome is returned. -/
theorem eliminateNumber_playing_turn_spec
    (R : Registry) (code : String) (number : Int) (sid : String) (now : Nat)
    (g : Game) (cp : Player)
    (hlk : lookupReg R code = some g)
    (hstate : g.gameState = GameState.PLAYING)
    (hcp : g.players[g.currentTurnIndex]? = some cp)
    (hid : cp.id = sid)
    (helim : cp.isEliminated = false)
    (hsec : cp.secretNumber ≠ some number) :
    ∃ g' res elimThis newLog,
      eliminateNumber R code number sid now = (setReg R code g', some res) ∧
      elimThis = (g.players.filter
          (fun p => !p.isEliminated && p.secretNumber == some number)).map
          (fun p => { p with isEliminated := true }) ∧
      newLog = g.gameLog.getD [] ++
        [{ player := cp.name, number := number,
           eliminated := elimThis.map (fun p => p.name), timestamp := now }] ∧
      (∀ (j : Nat), g'.players[j]?
        = g.players[j]?.map (fun (p : Player) =>
            if !p.isEliminated && p.secretNumber == some number then
              { p with isEliminated := true }
            else p)) ∧
      g'.eliminatedPlayers = g.eliminatedPlayers ++ elimThis ∧
      g'.gameLog = some newLog ∧
      (if (g'.players.filter (fun p => !p.isEliminated)).length ≤ 1 then
        g'.gameState = GameState.FINISHED ∧
        g'.winner = (g'.players.filter (fun p => !p.isEliminated)).head? ∧
        res = ElimResult.gameOver elimThis number newLog
      else
        g'.gameState = GameState.PLAYING ∧
        g'.currentTurnIndex
          = nextTurnAux g'.players ((g.currentTurnIndex + 1) % g'.players.length)
              g'.players.length ∧
        res = ElimResult.contResult elimThis number newLog) := by
  have hidsid : ¬(cp.id ≠ sid) := fun h => h hid
  have helim' : ¬(cp.isEliminated = true) := by
    rw [helim]; exact Bool.false_ne_true
  have hsec' : (cp.secretNumber == some number) = false := by
    cases hx : cp.secretNumber == some number
    · rfl
    · exact absurd (eq_of_beq hx) hsec
  unfold eliminateNumber
  simp only [hlk]
  rw [if_neg (show ¬(g.gameState ≠ GameState.PLAYING) from fun h => h hstate)]
  unfold eliminateNumberCore
  simp only [hcp]
  rw [if_neg hidsid, if_neg helim',
    if_neg (show ¬((cp.secretNumber == some number) = true) from by
      rw [hsec']; exact Bool.false_ne_true)]
  by_cases hact :
      ((elimScan g.players number).1.filter (fun p => !p.isEliminated)).length ≤ 1
  · rw [if_pos hact]
    refine ⟨_, _, (elimScan g.players number).2, _, rfl,
      elimScan_snd g.players number, rfl, ?_, rfl, rfl, ?_⟩
    · intro j
      exact getElem?_elimScan_fst g.players number j
    · split
      · exact ⟨rfl, rfl, rfl⟩
      · next hcond => exact absurd hact hcond
  · rw [if_neg hact]
    refine ⟨_, _, (elimScan g.players number).2, _, rfl,
      elimScan_snd g.players number, rfl, ?_, rfl, rfl, ?_⟩
    · intro j
      exact getElem?_elimScan_fst g.players number j
    · split
      · next hcond => exact absurd hcond hact
      · exact ⟨hstate, rfl, rfl⟩

theorem eliminateNumber_playing_turn_witness :
    ∃ g' res elimThis newLog,
      eliminateNumber regPlaying "1234" 9 "s1" 0
        = (setReg regPlaying "1234" g', some res) ∧
      elimThis = (gPlaying.players.filter
          (fun p => !p.isEliminated && p.secretNumber == some 9)).map
          (fun p => { p with isEliminated := true }) ∧
      newLog = gPlaying.gameLog.getD [] ++
        [{ player := pA.name, number := 9,
           eliminated := elimThis.map (fun p => p.name), timestamp := 0 }] ∧
      (∀ (j : Nat), g'.players[j]?
        = gPlaying.players[j]?.map (fun (p : Player) =>
            if !p.isEliminated && p.secretNumber == some 9 then
              { p with isEliminated := true }
            else p)) ∧
      g'.eliminatedPlayers = gPlaying.eliminatedPlayers ++ elimThis ∧
      g'.gameLog = some newLog ∧
      (if (g'.players.filter (fun p => !p.isEliminated)).length ≤ 1 then
        g'.gameState = GameState.FINISHED ∧
        g'.winner = (g'.players.filter (fun p => !p.isEliminated)).head? ∧
        res = ElimResult.gameOver elimThis 9 newLog
      else
        g'.gameState = GameState.PLAYING ∧
        g'.currentTurnIndex
          = nextTurnAux g'.players
              ((gPlaying.currentTurnIndex + 1) % g'.players.length)
              g'.players.length ∧
        res = ElimResult.contResult elimThis 9 newLog) :=
  eliminateNumber_playing_turn_spec regPlaying "1234" 9 "s1" 0 gPlaying pA
    rfl rfl rfl rfl rfl (by decide)

end SecretSurvivor
